import Mathlib

/-!
Shallow embedding of the mental-health-lifestyle dashboard (src/app.py):
the dataset loader, the five-column filter engine, and the aggregation
functions (group mean, row-normalized cross-tabulation, Pearson
correlation, OLS regression, pd.cut binning), together with theorems
settling the specification claims about them.

Numeric columns are modelled as rationals (the source computes in
floating point; the algebraic identities proved here are exact).
-/

/-- One CSV row of the dataset, before the loader's derived column. -/
structure Record where
  country : String
  gender : String
  age : ℚ
  exerciseLevel : String
  dietType : String
  sleepHours : ℚ
  stressLevel : String
  mentalHealthCondition : String
  happinessScore : ℚ
  socialInteractionScore : ℚ
  workHoursPerWeek : ℚ
  screenTimePerDay : ℚ
deriving DecidableEq

/-- The fixed stress mapping of `load_data` (app.py line 54):
`stress_map = {"Low": 1, "Moderate": 2, "High": 3}`.  `pandas.Series.map`
yields a missing value (NaN) for keys outside the dict, modelled as
`none`. -/
def stressMap (s : String) : Option ℚ :=
  if s = "Low" then some 1
  else if s = "Moderate" then some 2
  else if s = "High" then some 3
  else none

/-- A row of the loaded dataframe: the CSV row plus the derived
`Stress Level Numeric` column (app.py line 55). -/
structure LoadedRecord where
  raw : Record
  stressLevelNumeric : Option ℚ
deriving DecidableEq

/-- `load_data` (app.py lines 50-57): reads the table and appends
`Stress Level Numeric` via `df["Stress Level"].map(stress_map)`.
The function is total: no exception path exists in the source for
out-of-domain stress labels. -/
def load_data (rows : List Record) : List LoadedRecord :=
  rows.map fun r => ⟨r, stressMap r.stressLevel⟩

/-- The five multiselect filter selections from the sidebar
(app.py lines 66-102). -/
structure Selection where
  countries : List String
  genders : List String
  exerciseLevels : List String
  dietTypes : List String
  mentalHealthConditions : List String

/-- The row predicate of the boolean mask at app.py lines 105-111:
conjunction of `isin` membership over the five filtered columns. -/
def rowPasses (sel : Selection) (r : LoadedRecord) : Bool :=
  sel.countries.contains r.raw.country &&
  sel.genders.contains r.raw.gender &&
  sel.exerciseLevels.contains r.raw.exerciseLevel &&
  sel.dietTypes.contains r.raw.dietType &&
  sel.mentalHealthConditions.contains r.raw.mentalHealthCondition

/-- `filtered_df` (app.py lines 105-111): the subset of rows whose value
in each of the five columns is in that column's selection, preserving
row order. -/
def filtered_df (df : List LoadedRecord) (sel : Selection) : List LoadedRecord :=
  df.filter (rowPasses sel)

/-- `pd.cut` with the default `right=True` (app.py lines 475-479,
the `Sleep Bin` column): value `v` falls in bin `i` iff
`edges[i] < v ≤ edges[i+1]`; values outside all bins get no label. -/
def cutRightClosed (v : ℚ) : List ℚ → List String → Option String
  | e0 :: e1 :: es, l :: ls =>
      if e0 < v ∧ v ≤ e1 then some l else cutRightClosed v (e1 :: es) ls
  | _, _ => none

/-- `pd.cut` with `right=False` (app.py line 348, the `Age Group`
column): value `v` falls in bin `i` iff `edges[i] ≤ v < edges[i+1]`. -/
def cutRightOpen (v : ℚ) : List ℚ → List String → Option String
  | e0 :: e1 :: es, l :: ls =>
      if e0 ≤ v ∧ v < e1 then some l else cutRightOpen v (e1 :: es) ls
  | _, _ => none

/-- The `Sleep Bin` binning (app.py lines 475-479):
`pd.cut(..., bins=[0, 4, 6, 8, 12], labels=[...])` with default
`right=True`. -/
def sleepBin (v : ℚ) : Option String :=
  cutRightClosed v [0, 4, 6, 8, 12] ["<4 hrs", "4-6 hrs", "6-8 hrs", ">8 hrs"]

/-- The `Age Group` binning (app.py lines 346-348):
`pd.cut(..., bins=[15, 25, 35, 45, 55, 65], labels=[...], right=False)`. -/
def ageGroup (v : ℚ) : Option String :=
  cutRightOpen v [15, 25, 35, 45, 55, 65] ["18-25", "26-35", "36-45", "46-55", "56-65"]

/-- Number of rows whose row-column value is `r` (the row total of
`pd.crosstab(..., normalize="index")`, app.py lines 250-254). -/
def countRow (rows : List (String × String)) (r : String) : ℕ :=
  (rows.filter fun p => p.1 = r).length

/-- Number of rows with row-column value `r` and column-column value `c`
(one cell count of the cross-tabulation). -/
def countCell (rows : List (String × String)) (r c : String) : ℕ :=
  (rows.filter fun p => p.1 = r ∧ p.2 = c).length

/-- The distinct column-column values observed in the data: the columns
of the cross-tabulation table. -/
def observedCols (rows : List (String × String)) : List String :=
  (rows.map Prod.snd).dedup

/-- One entry of `pd.crosstab(rowS, colS, normalize="index") * 100`
(app.py lines 250-254): the percentage of rows with row value `r`
whose column value is `c`. -/
def crosstabEntry (rows : List (String × String)) (r c : String) : ℚ :=
  (countCell rows r c : ℚ) / (countRow rows r : ℚ) * 100

/-- The distinct group keys of a `groupby` over pairs (group value,
numeric value). -/
def groupKeys (rows : List (String × ℚ)) : List String :=
  (rows.map Prod.fst).dedup

/-- Mean of the numeric values in the group `g`. -/
def groupMeanAt (rows : List (String × ℚ)) (g : String) : ℚ :=
  let vs := (rows.filter fun p => p.1 = g).map Prod.snd
  vs.sum / (vs.length : ℚ)

/-- `groupby(group_col)[value_col].mean()` on a plain string group
column (app.py lines 451 and 463, the exercise-level and diet-type
group means): the mapping from each observed group value to the
arithmetic mean of the numeric column over that group.  The sleep-bin
group mean at line 480 groups by a `pd.cut` categorical instead and is
embedded separately as `group_mean_cat`. -/
def group_mean (rows : List (String × ℚ)) : List (String × ℚ) :=
  (groupKeys rows).map fun g => (g, groupMeanAt rows g)

/-- `groupby` on a categorical column with pandas' default
`observed=False` (app.py line 480, grouping by the `pd.cut` column
`Sleep Bin`): the output has one key per category — every bin label, in
category order, whether observed or not — and a category with zero rows
gets a missing (NaN) mean, modelled as `none`; rows whose bin is
missing (value outside all bins) are dropped from every group. -/
def group_mean_cat (cats : List String) (rows : List (Option String × ℚ)) :
    List (String × Option ℚ) :=
  cats.map fun g =>
    let vs := (rows.filter fun p => p.1 = some g).map Prod.snd
    (g, if vs.length = 0 then none else some (vs.sum / (vs.length : ℚ)))

/-- `filtered_df.groupby("Sleep Bin")["Happiness Score"].mean()`
(app.py lines 475-480): each row contributes its `Sleep Bin` label
(the `pd.cut` of its sleep hours) and its happiness score, and the
groupby runs over the categorical with all four bin labels as
categories. -/
def sleep_happiness (rows : List LoadedRecord) : List (String × Option ℚ) :=
  group_mean_cat ["<4 hrs", "4-6 hrs", "6-8 hrs", ">8 hrs"]
    (rows.map fun r => (sleepBin r.raw.sleepHours, r.raw.happinessScore))

/-- Mean of a list of rationals (`Series.mean()`). -/
def listMean (l : List ℚ) : ℚ := l.sum / (l.length : ℚ)

/-- Pairwise-complete observations: the rows where both columns have a
present value (`pandas` drops NaN pairs when computing `.corr()`). -/
def pairComplete (x y : List (Option ℚ)) : List (ℚ × ℚ) :=
  (x.zip y).filterMap fun p =>
    match p with
    | (some a, some b) => some (a, b)
    | _ => none

/-- Sum of products of deviations from the mean,
`Σ (aᵢ - mean a)·(bᵢ - mean b)`, the numerator of the Pearson
correlation (up to the 1/(n-1) factor, which cancels). -/
def sdev (a b : List ℚ) : ℚ :=
  ((a.zip b).map fun p => (p.1 - listMean a) * (p.2 - listMean b)).sum

/-- `Series.corr` / one entry of `df[numeric_cols].corr()` (app.py
lines 508-514 and 609): the Pearson correlation coefficient of two
columns over their pairwise-complete observations. -/
noncomputable def pearson (x y : List (Option ℚ)) : ℝ :=
  let ps := pairComplete x y
  let a := ps.map Prod.fst
  let b := ps.map Prod.snd
  (sdev a b : ℝ) / Real.sqrt ((sdev a a : ℝ) * (sdev b b : ℝ))

/-- The x column of a list of (x, y) points. -/
def xCol (ps : List (ℚ × ℚ)) : List ℚ := ps.map Prod.fst

/-- The y column of a list of (x, y) points. -/
def yCol (ps : List (ℚ × ℚ)) : List ℚ := ps.map Prod.snd

/-- `statsmodels.add_constant`'s constancy check (default
`has_constant="skip"`): a column is constant when all entries equal the
first; if the x column is already constant, no intercept column is
added. -/
def isConstCol (l : List ℚ) : Bool :=
  match l with
  | [] => true
  | a :: t => t.all (· == a)

/-- The regression step of the Relationship Explorer (app.py lines
598-612): `X = sm.add_constant(filtered_df[x_var])`,
`model = sm.OLS(y, X).fit()`, displaying the fitted coefficient of the
least-squares line and `model.rsquared`.  When the x column is constant,
`add_constant` skips the intercept and the design is the single column
x, whose least-squares coefficient is `Σxy / Σx²`; otherwise the design
is `[1, x]` and the usual slope/intercept formulas apply.  `rsquared`
is `1 - SSR/SST` with SST centered (a constant is in the column span).
The computation is total: the source wraps it in no error handling. -/
def olsDisplay (ps : List (ℚ × ℚ)) : ℚ × ℚ :=
  let xs := xCol ps
  let ys := yCol ps
  let sst := (ys.map fun v => (v - listMean ys) ^ 2).sum
  if isConstCol xs then
    let b := ((ps.map fun p => p.1 * p.2).sum) / ((xs.map fun v => v * v).sum)
    let ssr := (ps.map fun p => (p.2 - b * p.1) ^ 2).sum
    (b, 1 - ssr / sst)
  else
    let n : ℚ := ps.length
    let sx := xs.sum
    let sy := ys.sum
    let sxy := (ps.map fun p => p.1 * p.2).sum
    let sxx := (xs.map fun v => v * v).sum
    let slope := (n * sxy - sx * sy) / (n * sxx - sx * sx)
    let intercept := (sy - slope * sx) / n
    let ssr := (ps.map fun p => (p.2 - (slope * p.1 + intercept)) ^ 2).sum
    (slope, 1 - ssr / sst)

/-- Failure taxonomy of the specification's aggregation contract. -/
inductive RegressionFailure where
  | insufficientData
deriving DecidableEq

/-- Modelled from the spec: `ols_fit(rows, x_col, y_col)` as the
specification states it — "fails with `InsufficientDataError` if fewer
than 2 distinct x values remain after filtering", otherwise the
least-squares slope, intercept and R².  This definition follows the
spec's words and exists to be compared with `olsDisplay`, the
embedding of the source's actual regression step. -/
def ols_fit_spec (ps : List (ℚ × ℚ)) : Except RegressionFailure (ℚ × ℚ) :=
  if (xCol ps).dedup.length < 2 then
    Except.error RegressionFailure.insufficientData
  else
    Except.ok (olsDisplay ps)

/-- A dataframe as a column store: column name to column of optional
(possibly missing) numeric values. -/
abbrev Frame := List (String × List (Option ℚ))

/-- Column lookup, `df[name]`. -/
def getCol (f : Frame) (c : String) : List (Option ℚ) :=
  match f.find? (fun p => p.1 == c) with
  | some p => p.2
  | none => []

/-- Column assignment, `df[name] = v`: replaces the column when present,
appends it otherwise. -/
def setCol (f : Frame) (c : String) (v : List (Option ℚ)) : Frame :=
  if f.any (fun p => p.1 == c) then
    f.map fun p => if p.1 == c then (c, v) else p
  else
    f ++ [(c, v)]

/-- `Series.mean()`: missing values are skipped. -/
def meanOpt (col : List (Option ℚ)) : ℚ := listMean (col.filterMap id)

/-- The numeric columns of the correlation tab (app.py lines 508-512). -/
def numericCols : List String :=
  ["Age", "Sleep Hours", "Work Hours per Week",
   "Screen Time per Day (Hours)", "Social Interaction Score",
   "Happiness Score", "Stress Level Numeric"]

/-- The numeric columns of the filtered dataframe as a column store. -/
def frameOf (rows : List LoadedRecord) : Frame :=
  [("Age", rows.map fun r => some r.raw.age),
   ("Sleep Hours", rows.map fun r => some r.raw.sleepHours),
   ("Work Hours per Week", rows.map fun r => some r.raw.workHoursPerWeek),
   ("Screen Time per Day (Hours)", rows.map fun r => some r.raw.screenTimePerDay),
   ("Social Interaction Score", rows.map fun r => some r.raw.socialInteractionScore),
   ("Happiness Score", rows.map fun r => some r.raw.happinessScore),
   ("Stress Level Numeric", rows.map fun r => r.stressLevelNumeric)]

/-- `df[numeric_cols].corr()` (app.py line 514): the matrix of pairwise
Pearson correlations. -/
noncomputable def corrMatrix (f : Frame) (cols : List String) : List (List ℝ) :=
  cols.map fun ci => cols.map fun cj => pearson (getCol f ci) (getCol f cj)

/-- The (Country, Mental Health Condition) pairs feeding
`pd.crosstab(filtered_df["Country"], filtered_df["Mental Health Condition"], normalize="index")`
(app.py lines 250-254). -/
def mhCountryPairs (rows : List LoadedRecord) : List (String × String) :=
  rows.map fun r => (r.raw.country, r.raw.mentalHealthCondition)

/-- The aggregation outputs the dashboard computes from a non-empty
filtered subset: the four overview averages (app.py lines 154-157), the
per-country happiness group mean (line 135), the per-exercise-level
happiness group mean (line 451), the row-normalized country × condition
cross-tabulation (lines 250-254), the correlation matrix (line 514) and
the regression coefficients/R² of the Relationship Explorer at its
default variable choices (lines 600-612): x = Age, and y resolves to
Stress Level Numeric, because the default index into the x-filtered
option list (lines 569-573) lands on the entry after Happiness Score
once Age is removed. -/
structure AggResults where
  avgHappiness : ℚ
  avgStress : ℚ
  avgSocial : ℚ
  avgSleep : ℚ
  countryHappiness : List (String × ℚ)
  exerciseHappiness : List (String × ℚ)
  mhByCountry : List (String × List (String × ℚ))
  corrM : List (List ℝ)
  regression : ℚ × ℚ

/-- The aggregations of one render pass over the filtered rows. -/
noncomputable def computeAggs (rows : List LoadedRecord) : AggResults :=
  { avgHappiness := listMean (rows.map fun r => r.raw.happinessScore)
    avgStress := meanOpt (rows.map fun r => r.stressLevelNumeric)
    avgSocial := listMean (rows.map fun r => r.raw.socialInteractionScore)
    avgSleep := listMean (rows.map fun r => r.raw.sleepHours)
    countryHappiness :=
      group_mean (rows.map fun r => (r.raw.country, r.raw.happinessScore))
    exerciseHappiness :=
      group_mean (rows.map fun r => (r.raw.exerciseLevel, r.raw.happinessScore))
    mhByCountry :=
      (groupKeys (rows.map fun r => (r.raw.country, r.raw.happinessScore))).map fun r =>
        (r, (observedCols (mhCountryPairs rows)).map fun c =>
              (c, crosstabEntry (mhCountryPairs rows) r c))
    corrM := corrMatrix (frameOf rows) numericCols
    regression := olsDisplay (pairComplete (rows.map fun r => some r.raw.age)
      (rows.map fun r => r.stressLevelNumeric)) }

/-- The terminal display state of one pipeline run: either the
"no data matches your filter criteria" error page reached through
`st.stop()` (app.py lines 118-120), or a rendered page carrying the
aggregation results. -/
inductive DisplayState where
  | noMatch
  | rendered (aggs : AggResults)

/-- One run of the script from the filter mask down: build
`filtered_df`, and if it is empty show the error and stop (app.py lines
118-120) before any aggregation; otherwise compute the aggregations and
render. -/
noncomputable def pipeline (df : List LoadedRecord) (sel : Selection) : DisplayState :=
  let f := filtered_df df sel
  if f.isEmpty then DisplayState.noMatch
  else DisplayState.rendered (computeAggs f)

/-- The displayed numeric summaries of one run, as a function of the
dataset, the filter selection, the jitter noise vector drawn at app.py
line 317, and the Relationship Explorer variable choices: the four
overview averages (lines 154-157, computed before the jitter column is
assigned), the correlation matrix (line 514), the correlation
coefficient (line 609) and the regression output (lines 600-612), all
computed after `filtered_df["Happiness Jitter"]` has been assigned. -/
noncomputable def runSummaries (df : List LoadedRecord) (sel : Selection)
    (noise : List ℚ) (xv yv : String) :
    ℚ × ℚ × ℚ × ℚ × List (List ℝ) × ℝ × (ℚ × ℚ) :=
  let rows := filtered_df df sel
  let f0 := frameOf rows
  let a1 := meanOpt (getCol f0 "Happiness Score")
  let a2 := meanOpt (getCol f0 "Stress Level Numeric")
  let a3 := meanOpt (getCol f0 "Social Interaction Score")
  let a4 := meanOpt (getCol f0 "Sleep Hours")
  let jitterCol := (rows.zip noise).map fun p => some (p.1.raw.happinessScore + p.2)
  let f1 := setCol f0 "Happiness Jitter" jitterCol
  let cm := corrMatrix f1 numericCols
  let cc := pearson (getCol f1 xv) (getCol f1 yv)
  let reg := olsDisplay (pairComplete (getCol f1 xv) (getCol f1 yv))
  (a1, a2, a3, a4, cm, cc, reg)

/-- A sample in-domain CSV row used to instantiate the theorems. -/
def sampleRec : Record :=
  { country := "USA", gender := "Male", age := 30, exerciseLevel := "High",
    dietType := "Vegan", sleepHours := 7, stressLevel := "Low",
    mentalHealthCondition := "Depression", happinessScore := 6,
    socialInteractionScore := 5, workHoursPerWeek := 40, screenTimePerDay := 4 }

/-- A sample CSV row whose stress label is outside {Low, Moderate, High}. -/
def sampleRecBadStress : Record :=
  { sampleRec with stressLevel := "Extreme" }

/-- The loaded form of `sampleRec` (stress "Low" maps to 1). -/
def sampleRow : LoadedRecord := ⟨sampleRec, some 1⟩

/-- A selection containing the sample row's values in each column. -/
def sampleSel : Selection :=
  { countries := ["USA", "Canada"], genders := ["Male", "Female"],
    exerciseLevels := ["Low", "High"], dietTypes := ["Vegan"],
    mentalHealthConditions := ["Depression", "None"] }

/-- The all-empty selection: every multiselect cleared. -/
def emptySel : Selection :=
  { countries := [], genders := [], exerciseLevels := [],
    dietTypes := [], mentalHealthConditions := [] }

/-- Claim C1: a record appears in `filtered_df` iff it is in the
dataset and, for each of the five filtered columns, its value is a
member of that column's selection set (conjunction across columns);
consequently every dataset record not in the output fails membership
for at least one column. -/
theorem C1_filter_and_semantics (df : List LoadedRecord) (sel : Selection) :
    (∀ r, r ∈ filtered_df df sel ↔
      (r ∈ df ∧ r.raw.country ∈ sel.countries ∧ r.raw.gender ∈ sel.genders ∧
       r.raw.exerciseLevel ∈ sel.exerciseLevels ∧ r.raw.dietType ∈ sel.dietTypes ∧
       r.raw.mentalHealthCondition ∈ sel.mentalHealthConditions)) ∧
    (∀ r ∈ df, r ∉ filtered_df df sel →
      r.raw.country ∉ sel.countries ∨ r.raw.gender ∉ sel.genders ∨
      r.raw.exerciseLevel ∉ sel.exerciseLevels ∨ r.raw.dietType ∉ sel.dietTypes ∨
      r.raw.mentalHealthCondition ∉ sel.mentalHealthConditions) := by
  constructor
  · intro r
    simp [filtered_df, rowPasses, List.mem_filter, List.elem_iff]
    tauto
  · intro r hmem hnot
    by_contra hcon
    push_neg at hcon
    apply hnot
    simp [filtered_df, rowPasses, List.mem_filter, List.elem_iff]
    tauto

/-- Witness for C1 at a concrete dataset, selection and record: the
sample row passes all five memberships and is in the output, and a row
differing in diet type is excluded for that reason. -/
theorem C1_filter_and_semantics_witness :
    sampleRow ∈ filtered_df [sampleRow] sampleSel ∧
    ((⟨{ sampleRec with dietType := "Keto" }, some 1⟩ : LoadedRecord).raw.country ∉ sampleSel.countries ∨
     (⟨{ sampleRec with dietType := "Keto" }, some 1⟩ : LoadedRecord).raw.gender ∉ sampleSel.genders ∨
     (⟨{ sampleRec with dietType := "Keto" }, some 1⟩ : LoadedRecord).raw.exerciseLevel ∉ sampleSel.exerciseLevels ∨
     (⟨{ sampleRec with dietType := "Keto" }, some 1⟩ : LoadedRecord).raw.dietType ∉ sampleSel.dietTypes ∨
     (⟨{ sampleRec with dietType := "Keto" }, some 1⟩ : LoadedRecord).raw.mentalHealthCondition ∉ sampleSel.mentalHealthConditions) :=
  ⟨((C1_filter_and_semantics [sampleRow] sampleSel).1 sampleRow).2 (by decide),
   (C1_filter_and_semantics [⟨{ sampleRec with dietType := "Keto" }, some 1⟩] sampleSel).2
     ⟨{ sampleRec with dietType := "Keto" }, some 1⟩ (by decide) (by decide)⟩

/-- Claim C7: filtering is idempotent — applying `filtered_df` to an
already-filtered subset with the same selection yields exactly the same
list of records in the same order. -/
theorem C7_filter_idempotent (df : List LoadedRecord) (sel : Selection) :
    filtered_df (filtered_df df sel) sel = filtered_df df sel := by
  simp [filtered_df, List.filter_filter]

/-- Counterexample to claim C2: on an input whose stress label is
"Extreme" (outside {Low, Moderate, High}) the load does not fail — it
returns a row whose `Stress Level Numeric` entry is missing, exactly
what the claim says cannot happen. -/
theorem C2_cex_load_total :
    load_data [sampleRecBadStress] = [⟨sampleRecBadStress, none⟩] := by decide

/-- Claim C2 as amended: `load_data` appends `Stress Level Numeric`
computed row-wise by the mapping Low→1, Moderate→2, High→3, and a row
whose stress label lies outside {Low, Moderate, High} is loaded with a
missing numeric value (the load never fails). -/
theorem C2_stress_mapping (rows : List Record) (lr : LoadedRecord)
    (h : lr ∈ load_data rows) :
    lr.raw ∈ rows ∧
    (lr.raw.stressLevel = "Low" → lr.stressLevelNumeric = some 1) ∧
    (lr.raw.stressLevel = "Moderate" → lr.stressLevelNumeric = some 2) ∧
    (lr.raw.stressLevel = "High" → lr.stressLevelNumeric = some 3) ∧
    (lr.raw.stressLevel ∉ (["Low", "Moderate", "High"] : List String) →
      lr.stressLevelNumeric = none) := by
  simp only [load_data, List.mem_map] at h
  obtain ⟨r, hr, rfl⟩ := h
  refine ⟨hr, ?_, ?_, ?_, ?_⟩ <;> intro hs <;> simp_all [stressMap]

/-- Witness for C2's amended theorem: in the two-row dataset with one
in-domain and one out-of-domain stress label, the out-of-domain row is
loaded with a missing numeric value. -/
theorem C2_stress_mapping_witness :
    (⟨sampleRecBadStress, none⟩ : LoadedRecord).raw ∈ [sampleRec, sampleRecBadStress] ∧
    ((⟨sampleRecBadStress, none⟩ : LoadedRecord).raw.stressLevel = "Low" →
      (⟨sampleRecBadStress, none⟩ : LoadedRecord).stressLevelNumeric = some 1) ∧
    ((⟨sampleRecBadStress, none⟩ : LoadedRecord).raw.stressLevel = "Moderate" →
      (⟨sampleRecBadStress, none⟩ : LoadedRecord).stressLevelNumeric = some 2) ∧
    ((⟨sampleRecBadStress, none⟩ : LoadedRecord).raw.stressLevel = "High" →
      (⟨sampleRecBadStress, none⟩ : LoadedRecord).stressLevelNumeric = some 3) ∧
    ((⟨sampleRecBadStress, none⟩ : LoadedRecord).raw.stressLevel ∉
        (["Low", "Moderate", "High"] : List String) →
      (⟨sampleRecBadStress, none⟩ : LoadedRecord).stressLevelNumeric = none) :=
  C2_stress_mapping [sampleRec, sampleRecBadStress] ⟨sampleRecBadStress, none⟩ (by decide)

/-- Claim C3: whenever the filtered subset is empty the pipeline run
ends in the `noMatch` terminal display state (the `st.stop()` branch),
which carries no aggregation results; and in particular the all-empty
selection always produces an empty subset and hence that state. -/
theorem C3_empty_short_circuit (df : List LoadedRecord) (sel : Selection) :
    (filtered_df df sel = [] → pipeline df sel = DisplayState.noMatch) ∧
    (sel.countries = [] ∧ sel.genders = [] ∧ sel.exerciseLevels = [] ∧
     sel.dietTypes = [] ∧ sel.mentalHealthConditions = [] →
      filtered_df df sel = [] ∧ pipeline df sel = DisplayState.noMatch) := by
  have hmain : filtered_df df sel = [] → pipeline df sel = DisplayState.noMatch := by
    intro h
    simp [pipeline, h]
  refine ⟨hmain, ?_⟩
  rintro ⟨h1, h2, h3, h4, h5⟩
  have hempty : filtered_df df sel = [] := by
    simp [filtered_df, List.filter_eq_nil_iff, rowPasses, h1]
  exact ⟨hempty, hmain hempty⟩

/-- Witness for C3 at a concrete dataset and the all-empty selection:
the run on the one-row sample dataset with every multiselect cleared
reaches the `noMatch` terminal state. -/
theorem C3_empty_short_circuit_witness :
    filtered_df [sampleRow] emptySel = [] ∧
    pipeline [sampleRow] emptySel = DisplayState.noMatch :=
  (C3_empty_short_circuit [sampleRow] emptySel).2 ⟨rfl, rfl, rfl, rfl, rfl⟩

/-- Counterexample to claim C4: with the sleep edges [0, 4, 6, 8, 12],
binning 0 does not yield "<4" (it yields no bin) and binning 12 does
not yield "no bin" (it yields ">8"): the source's `pd.cut` for the
sleep bins uses the default right-closed intervals, not [edges[i],
edges[i+1]). -/
theorem C4_cex_right_closed :
    sleepBin 0 ≠ some "<4 hrs" ∧ sleepBin 12 ≠ none := by decide

/-- Claim C4 as amended: the sleep binning maps a value to the label of
the left-open right-closed interval (edges[i], edges[i+1]] containing
it (the `pd.cut` default), while the age binning (`right=False`) uses
[edges[i], edges[i+1]); values outside all intervals get no bin. With
the sleep edges, binning(5) yields "4-6", binning(0) yields no bin, and
binning(12) yields ">8" (right edge included). -/
theorem C4_binning_intervals (v : ℚ) :
    ((sleepBin v = some "<4 hrs" ↔ 0 < v ∧ v ≤ 4) ∧
     (sleepBin v = some "4-6 hrs" ↔ 4 < v ∧ v ≤ 6) ∧
     (sleepBin v = some "6-8 hrs" ↔ 6 < v ∧ v ≤ 8) ∧
     (sleepBin v = some ">8 hrs" ↔ 8 < v ∧ v ≤ 12) ∧
     (sleepBin v = none ↔ ¬(0 < v ∧ v ≤ 12))) ∧
    ((ageGroup v = some "18-25" ↔ 15 ≤ v ∧ v < 25) ∧
     (ageGroup v = none ↔ ¬(15 ≤ v ∧ v < 65))) ∧
    sleepBin 5 = some "4-6 hrs" ∧ sleepBin 0 = none ∧ sleepBin 12 = some ">8 hrs" ∧
    ageGroup 15 = some "18-25" ∧ ageGroup 65 = none := by
  refine ⟨⟨?_, ?_, ?_, ?_, ?_⟩, ⟨?_, ?_⟩, by decide, by decide, by decide, by decide, by decide⟩
  · simp only [sleepBin, cutRightClosed]
    split_ifs with h1 h2 h3 h4 <;> simp_all
  · simp only [sleepBin, cutRightClosed]
    split_ifs with h1 h2 h3 h4 <;> simp_all
  · simp only [sleepBin, cutRightClosed]
    split_ifs with h1 h2 h3 h4 <;> simp_all
    intro h0
    linarith [h1.2]
  · simp only [sleepBin, cutRightClosed]
    split_ifs with h1 h2 h3 h4 <;> simp_all
    · intro h0
      linarith [h1.2]
    · intro h0
      linarith [h2.2]
  · simp only [sleepBin, cutRightClosed]
    split_ifs with h1 h2 h3 h4 <;> simp_all
    · linarith [h1.2]
    · exact ⟨by linarith [h2.1], by linarith [h2.2]⟩
    · exact ⟨by linarith [h3.1], by linarith [h3.2]⟩
    · linarith [h4.1]
    · intro h
      exact h4 (h3 (h2 (h1 h)))
  · simp only [ageGroup, cutRightOpen]
    split_ifs with h1 h2 h3 h4 h5 <;> simp_all
  · simp only [ageGroup, cutRightOpen]
    split_ifs with h1 h2 h3 h4 h5 <;> simp_all
    · linarith [h1.2]
    · exact ⟨by linarith [h2.1], by linarith [h2.2]⟩
    · exact ⟨by linarith [h3.1], by linarith [h3.2]⟩
    · exact ⟨by linarith [h4.1], by linarith [h4.2]⟩
    · linarith [h5.1]
    · intro h
      exact h5 (h4 (h3 (h2 (h1 h))))

/-- The keys of `group_mean` are exactly the group values occurring in
the rows. -/
theorem mem_groupKeys (rows : List (String × ℚ)) (g : String) :
    g ∈ groupKeys rows ↔ ∃ v, (g, v) ∈ rows := by
  simp only [groupKeys, List.mem_dedup, List.mem_map]
  constructor
  · rintro ⟨⟨a, b⟩, hab, rfl⟩
    exact ⟨b, hab⟩
  · rintro ⟨v, hv⟩
    exact ⟨(g, v), hv, rfl⟩

/-- Membership in the output of `group_mean`, characterised. -/
theorem mem_group_mean (rows : List (String × ℚ)) (g : String) (m : ℚ) :
    (g, m) ∈ group_mean rows ↔ g ∈ groupKeys rows ∧ m = groupMeanAt rows g := by
  simp only [group_mean, List.mem_map, Prod.mk.injEq]
  constructor
  · rintro ⟨k, hk, rfl, rfl⟩
    exact ⟨hk, rfl⟩
  · rintro ⟨hg, rfl⟩
    exact ⟨g, hg, rfl, rfl⟩

/-- Counterexample to claim C6: at the sleep-bin group mean the claim's
"groups with zero rows are absent from the output" fails — with a
single record whose sleep hours (7) fall in the "6-8 hrs" bin, no
record has bin "<4 hrs", yet the groupby output of app.py line 480
(grouping by the `pd.cut` categorical with pandas' default
`observed=False`) still contains the "<4 hrs" key, carrying a missing
mean. -/
theorem C6_cex_empty_bin_not_absent :
    (∀ r ∈ [sampleRow], sleepBin r.raw.sleepHours ≠ some "<4 hrs") ∧
    ("<4 hrs", (none : Option ℚ)) ∈ sleep_happiness [sampleRow] := by
  refine ⟨by decide, by decide⟩

/-- Claim C6 as amended: on a plain string group column (the
exercise-level and diet-type group means) `group_mean` returns a
mapping whose keys are exactly the distinct group values occurring in
the rows (groups with zero rows are absent), each key mapped to the
arithmetic mean of the numeric column over that group's rows (stated
cross-multiplied: the group is non-empty and mean · count = sum), and
on the spec's example input it yields A ↦ 3 and B ↦ 10; but when the
group column is the `pd.cut` categorical (the sleep-bin group mean),
the default `observed=False` groupby returns every category as a key,
and a category with zero rows is present in the output with a missing
(NaN) mean — neither absent nor zero. -/
theorem C6_group_mean_spec (rows : List (String × ℚ)) :
    (∀ g, (∃ m, (g, m) ∈ group_mean rows) ↔ (∃ v, (g, v) ∈ rows)) ∧
    (∀ g m, (g, m) ∈ group_mean rows →
      0 < (rows.filter fun p => p.1 = g).length ∧
      m * ((rows.filter fun p => p.1 = g).length : ℚ) =
        ((rows.filter fun p => p.1 = g).map Prod.snd).sum) ∧
    group_mean [("A", 2), ("A", 4), ("B", 10)] = [("A", 3), ("B", 10)] ∧
    (∀ (cats : List String) (crows : List (Option String × ℚ)),
      (group_mean_cat cats crows).map Prod.fst = cats) ∧
    (∀ (cats : List String) (crows : List (Option String × ℚ)) (g : String),
      g ∈ cats → (crows.filter fun p => p.1 = some g).length = 0 →
      (g, (none : Option ℚ)) ∈ group_mean_cat cats crows) := by
  refine ⟨?_, ?_, ?_, ?_, ?_⟩
  · intro g
    constructor
    · rintro ⟨m, hm⟩
      exact (mem_groupKeys rows g).mp ((mem_group_mean rows g m).mp hm).1
    · intro hg
      exact ⟨groupMeanAt rows g,
        (mem_group_mean rows g _).mpr ⟨(mem_groupKeys rows g).mpr hg, rfl⟩⟩
  · intro g m hm
    obtain ⟨hg, rfl⟩ := (mem_group_mean rows g m).mp hm
    obtain ⟨v, hv⟩ := (mem_groupKeys rows g).mp hg
    have hmem : (g, v) ∈ rows.filter fun p => p.1 = g := by
      simp [List.mem_filter, hv]
    have hlen : 0 < (rows.filter fun p => p.1 = g).length :=
      List.length_pos.mpr fun hnil => by simp [hnil] at hmem
    have hne : (((rows.filter fun p => p.1 = g).length : ℚ)) ≠ 0 := by
      exact_mod_cast hlen.ne'
    refine ⟨hlen, ?_⟩
    rw [groupMeanAt]
    simp only [List.length_map]
    exact div_mul_cancel₀ _ hne
  · have h1 : groupKeys [("A", 2), ("A", 4), ("B", 10)] = ["A", "B"] := by decide
    rw [group_mean, h1]
    simp +decide [groupMeanAt]
    norm_num
  · intro cats crows
    rw [group_mean_cat, List.map_map]
    refine Eq.trans (List.map_congr_left fun a ha => ?_) (List.map_id cats)
    rfl
  · intro cats crows g hg hlen
    rw [group_mean_cat]
    refine List.mem_map.mpr ⟨g, hg, ?_⟩
    simp [List.length_map, hlen]

/-- Witness for C6's amended theorem: at the spec's example the group
"A" is non-empty and its mean 3 satisfies mean · count = sum, and the
categorical groupby with a single "6-8 hrs" record keeps the empty
"<4 hrs" bin as a key with a missing mean. -/
theorem C6_group_mean_spec_witness :
    (0 < (([("A", 2), ("A", 4), ("B", 10)] : List (String × ℚ)).filter fun p => p.1 = "A").length ∧
     (3 : ℚ) * ((([("A", 2), ("A", 4), ("B", 10)] : List (String × ℚ)).filter fun p => p.1 = "A").length : ℚ) =
       ((([("A", 2), ("A", 4), ("B", 10)] : List (String × ℚ)).filter fun p => p.1 = "A").map Prod.snd).sum) ∧
    ("<4 hrs", (none : Option ℚ)) ∈
      group_mean_cat ["<4 hrs", "4-6 hrs", "6-8 hrs", ">8 hrs"] [(some "6-8 hrs", 6)] :=
  ⟨(C6_group_mean_spec [("A", 2), ("A", 4), ("B", 10)]).2.1 "A" 3
      (by rw [(C6_group_mean_spec [("A", 2), ("A", 4), ("B", 10)]).2.2.1]; simp),
   (C6_group_mean_spec []).2.2.2.2 ["<4 hrs", "4-6 hrs", "6-8 hrs", ">8 hrs"]
      [(some "6-8 hrs", 6)] "<4 hrs" (by decide) (by decide)⟩

/-- A cell count decomposes as: restrict to the row group, project the
column values, and count those equal to `c`. -/
theorem countCell_eq (rows : List (String × String)) (r c : String) :
    countCell rows r c =
      (((rows.filter fun p => p.1 = r).map Prod.snd).filter fun x => x = c).length := by
  rw [countCell]
  have h1 : (rows.filter fun p => p.1 = r ∧ p.2 = c) =
      ((rows.filter fun p => p.1 = r).filter fun p => p.2 = c) := by
    rw [List.filter_filter]
    congr 1
    funext p
    by_cases h1 : p.1 = r <;> by_cases h2 : p.2 = c <;> simp [h1, h2]
  rw [h1, ← List.length_map _ Prod.snd, List.filter_map]
  rfl

/-- Over a duplicate-free list containing `a` exactly once, the sum of
the indicator of `a` is 1. -/
theorem sum_ind (cs : List String) (a : String) (h : a ∈ cs) (hnd : cs.Nodup) :
    (cs.map fun c => if a = c then (1 : ℕ) else 0).sum = 1 := by
  induction cs with
  | nil => simp at h
  | cons x t ih =>
    rcases List.mem_cons.mp h with rfl | hmem
    · have hnotin : a ∉ t := (List.nodup_cons.mp hnd).1
      have : (t.map fun c => if a = c then (1 : ℕ) else 0).sum = 0 := by
        rw [List.sum_eq_zero]
        intro x hx
        obtain ⟨c, hc, rfl⟩ := List.mem_map.mp hx
        have hac : a ≠ c := fun hac => hnotin (hac ▸ hc)
        simp [hac]
      simp [this]
    · have hne : x ≠ a := fun hxa => (List.nodup_cons.mp hnd).1 (hxa ▸ hmem)
      simp [Ne.symm hne, ih hmem (List.nodup_cons.mp hnd).2]

/-- Partition identity: summing, over the deduplicated values of `cs`,
the number of elements of `l` equal to each value recovers the length
of `l`, provided every element of `l` occurs in `cs`. -/
theorem sum_filter_lengths (l cs : List String) (h : ∀ x ∈ l, x ∈ cs) :
    ((cs.dedup).map fun c => (l.filter fun x => x = c).length).sum = l.length := by
  induction l with
  | nil => simp
  | cons a t ih =>
    have hpt : ∀ c : String, ((a :: t).filter fun x => x = c).length =
        (if a = c then (1 : ℕ) else 0) + (t.filter fun x => x = c).length := by
      intro c
      simp only [List.filter_cons]
      split <;> rename_i hd
      · simp [of_decide_eq_true hd, Nat.add_comm]
      · have : ¬ a = c := by simpa using hd
        simp [this]
    simp only [hpt, List.sum_map_add]
    rw [ih fun x hx => h x (List.mem_cons_of_mem a hx),
        sum_ind cs.dedup a (List.mem_dedup.mpr (h a (List.mem_cons_self a t))) cs.nodup_dedup]
    simp [Nat.add_comm]

/-- Claim C5: for every row group `r` with at least one record, the
entries of row `r` of the row-normalized cross-tabulation sum to
exactly 100 across all observed column values — in particular within
the claimed 1e-6 tolerance. -/
theorem C5_crosstab_row_sum (rows : List (String × String)) (r : String)
    (h : 0 < countRow rows r) :
    ((observedCols rows).map fun c => crosstabEntry rows r c).sum = 100 ∧
    |((observedCols rows).map fun c => crosstabEntry rows r c).sum - 100| ≤ 1 / 1000000 := by
  have hsumN : ((observedCols rows).map fun c => countCell rows r c).sum = countRow rows r := by
    have hcc : ∀ c, countCell rows r c =
        ((((rows.filter fun p => p.1 = r).map Prod.snd)).filter fun x => x = c).length :=
      countCell_eq rows r
    simp only [hcc]
    rw [observedCols, sum_filter_lengths]
    · rw [countRow, List.length_map]
    · intro x hx
      obtain ⟨p, hp, rfl⟩ := List.mem_map.mp hx
      exact List.mem_map_of_mem Prod.snd (List.mem_of_mem_filter hp)
  have hN : ((countRow rows r : ℚ)) ≠ 0 := by exact_mod_cast h.ne'
  have hpt : ∀ c, crosstabEntry rows r c =
      (countCell rows r c : ℚ) * (100 / (countRow rows r : ℚ)) := by
    intro c
    rw [crosstabEntry]
    ring
  have hmain : ((observedCols rows).map fun c => crosstabEntry rows r c).sum = 100 := by
    simp only [hpt]
    rw [List.sum_map_mul_right]
    have hcast : ((observedCols rows).map fun c => ((countCell rows r c : ℕ) : ℚ)).sum =
        ((countRow rows r : ℕ) : ℚ) := by
      rw [← hsumN]
      push_cast
      rw [List.map_map]
      rfl
    rw [hcast]
    field_simp
  refine ⟨hmain, ?_⟩
  rw [hmain]
  norm_num

/-- Witness for C5 at a concrete table: the "USA" row of the
cross-tabulation of [("USA","Depression"), ("USA","None"),
("Canada","Depression")] has two records and its percentages sum to
100. -/
theorem C5_crosstab_row_sum_witness :
    ((observedCols [("USA", "Depression"), ("USA", "None"), ("Canada", "Depression")]).map
      fun c => crosstabEntry [("USA", "Depression"), ("USA", "None"), ("Canada", "Depression")] "USA" c).sum = 100 ∧
    |((observedCols [("USA", "Depression"), ("USA", "None"), ("Canada", "Depression")]).map
      fun c => crosstabEntry [("USA", "Depression"), ("USA", "None"), ("Canada", "Depression")] "USA" c).sum - 100| ≤ 1 / 1000000 :=
  C5_crosstab_row_sum [("USA", "Depression"), ("USA", "None"), ("Canada", "Depression")] "USA"
    (by decide)

/-- Swapping the two columns swaps each pairwise-complete observation. -/
theorem pairComplete_swap (x y : List (Option ℚ)) :
    pairComplete y x = (pairComplete x y).map Prod.swap := by
  rw [pairComplete, pairComplete, ← List.zip_swap, List.filterMap_map, List.map_filterMap]
  congr 1
  funext p
  rcases p with ⟨a | a, b | b⟩ <;> rfl

/-- The sum of products of deviations is symmetric in its two columns. -/
theorem sdev_comm (a b : List ℚ) : sdev a b = sdev b a := by
  rw [sdev, sdev, ← List.zip_swap a b, List.map_map]
  congr 1
  apply List.map_congr_left
  intro p hp
  simp only [Function.comp_apply, Prod.fst_swap, Prod.snd_swap]
  ring

/-- Pairing a column with itself yields equal projections. -/
theorem pairComplete_self_fst_eq_snd (x : List (Option ℚ)) :
    (pairComplete x x).map Prod.fst = (pairComplete x x).map Prod.snd := by
  induction x with
  | nil => rfl
  | cons o t ih =>
    cases o with
    | none => simpa [pairComplete] using ih
    | some a => simpa [pairComplete] using ih

/-- The Pearson correlation is symmetric in its two columns. -/
theorem pearson_symm (x y : List (Option ℚ)) : pearson x y = pearson y x := by
  rw [pearson, pearson, pairComplete_swap x y]
  simp only [List.map_map]
  have h1 : (Prod.fst ∘ Prod.swap : ℚ × ℚ → ℚ) = Prod.snd := rfl
  have h2 : (Prod.snd ∘ Prod.swap : ℚ × ℚ → ℚ) = Prod.fst := rfl
  rw [h1, h2, sdev_comm ((pairComplete x y).map Prod.snd) ((pairComplete x y).map Prod.fst),
      mul_comm ((sdev ((pairComplete x y).map Prod.snd) ((pairComplete x y).map Prod.snd) : ℚ) : ℝ)]

/-- The Pearson correlation of a column with itself is exactly 1 when
the column has non-zero variance (positive sum of squared
deviations). -/
theorem pearson_self (x : List (Option ℚ))
    (h : 0 < sdev ((pairComplete x x).map Prod.fst) ((pairComplete x x).map Prod.fst)) :
    pearson x x = 1 := by
  have hs : (0 : ℝ) < ((sdev ((pairComplete x x).map Prod.fst) ((pairComplete x x).map Prod.fst) : ℚ) : ℝ) := by
    exact_mod_cast h
  simp only [pearson]
  rw [← pairComplete_self_fst_eq_snd, Real.sqrt_mul_self hs.le, div_self hs.ne']

/-- Row `i` of the correlation matrix, as an optional lookup. -/
theorem corrMatrix_row (f : Frame) (cols : List String) (i : ℕ) :
    (corrMatrix f cols).getD i [] =
      ((cols[i]?).map fun ci => cols.map fun cj =>
        pearson (getCol f ci) (getCol f cj)).getD [] := by
  rw [corrMatrix]
  rcases hi : cols[i]? with _ | ci
  · rw [List.getD_eq_getElem?_getD, List.getElem?_map, hi]
  · rw [List.getD_eq_getElem?_getD, List.getElem?_map, hi]

/-- Entry (i, j) of the correlation matrix is the Pearson correlation
of columns i and j (0 when either index is out of range). -/
theorem corrMatrix_entry (f : Frame) (cols : List String) (i j : ℕ) :
    ((corrMatrix f cols).getD i []).getD j 0 =
      ((cols[i]?).bind fun ci => (cols[j]?).map fun cj =>
        pearson (getCol f ci) (getCol f cj)).getD 0 := by
  rw [corrMatrix_row]
  rcases hi : cols[i]? with _ | ci
  · simp
  · simp only [Option.map_some', Option.getD_some]
    rw [List.getD_eq_getElem?_getD, List.getElem?_map]
    rcases hj : cols[j]? with _ | cj <;> simp

/-- Claim C8: the Pearson correlation is symmetric and the correlation
matrix of `df[numeric_cols].corr()` satisfies entry (i,j) = entry (j,i)
for all index pairs, and every diagonal entry whose column has non-zero
variance (positive sum of squared deviations over its
pairwise-complete observations) equals exactly 1. -/
theorem C8_corr_symmetric_diagonal :
    (∀ x y, pearson x y = pearson y x) ∧
    (∀ (f : Frame) (cols : List String) (i j : ℕ),
      ((corrMatrix f cols).getD i []).getD j 0 = ((corrMatrix f cols).getD j []).getD i 0) ∧
    (∀ (f : Frame) (cols : List String) (i : ℕ) (ci : String), cols[i]? = some ci →
      0 < sdev ((pairComplete (getCol f ci) (getCol f ci)).map Prod.fst)
               ((pairComplete (getCol f ci) (getCol f ci)).map Prod.fst) →
      ((corrMatrix f cols).getD i []).getD i 0 = 1) := by
  refine ⟨pearson_symm, ?_, ?_⟩
  · intro f cols i j
    rw [corrMatrix_entry, corrMatrix_entry]
    rcases hi : cols[i]? with _ | ci <;> rcases hj : cols[j]? with _ | cj <;> simp
    exact pearson_symm _ _
  · intro f cols i ci hci hpos
    rw [corrMatrix_entry, hci]
    simp only [Option.bind_some, Option.map_some', Option.getD_some]
    exact pearson_self _ hpos

/-- Witness for C8 at a concrete one-column frame with values 1, 2, 3:
the diagonal entry of its correlation matrix is exactly 1. -/
theorem C8_corr_symmetric_diagonal_witness :
    ((corrMatrix [("Age", [some 1, some 2, some 3])] ["Age"]).getD 0 []).getD 0 0 = 1 :=
  C8_corr_symmetric_diagonal.2.2 [("Age", [some 1, some 2, some 3])] ["Age"] 0 "Age" (by rfl)
    (by
      have hpc : pairComplete (getCol [("Age", [some 1, some 2, some 3])] "Age")
          (getCol [("Age", [some 1, some 2, some 3])] "Age") = [(1, 1), (2, 2), (3, 3)] := by
        rfl
      rw [hpc]
      norm_num [sdev, listMean])

/-- A constant column has at most one distinct value. -/
theorem dedup_replicate_le_one (n : ℕ) (c : ℚ) : (List.replicate n c).dedup.length ≤ 1 := by
  induction n with
  | zero => simp
  | succ m ih =>
    rw [List.replicate_succ]
    by_cases hm : c ∈ List.replicate m c
    · rw [List.dedup_cons_of_mem hm]
      exact ih
    · have hm0 : m = 0 := by
        by_contra h0
        exact hm (List.mem_replicate.mpr ⟨h0, rfl⟩)
      subst hm0
      simp

/-- Counterexample to claim C9: on the input [(2,1), (2,3)], which has
a single distinct x value, the source's regression step does not fail —
it computes and displays coefficient 1 and R² = 0 — while the
specification's `ols_fit` contract demands an `InsufficientDataError`
there. -/
theorem C9_cex_no_failure :
    (xCol [((2 : ℚ), (1 : ℚ)), (2, 3)]).dedup.length < 2 ∧
    olsDisplay [((2 : ℚ), (1 : ℚ)), (2, 3)] = (1, 0) ∧
    ols_fit_spec [((2 : ℚ), (1 : ℚ)), (2, 3)] =
      Except.error RegressionFailure.insufficientData := by
  refine ⟨by decide, ?_, ?_⟩
  · norm_num [olsDisplay, xCol, yCol, isConstCol, listMean]
  · rw [ols_fit_spec, if_pos (by decide)]

/-- Claim C9 as amended: the source's regression step performs no
insufficient-data check and has no error path — on any input whose x
column is a non-zero constant (hence fewer than 2 distinct x values)
and whose y column is non-degenerate, `sm.add_constant` skips the
intercept, the fit still succeeds with coefficient mean(y)/c, and the
displayed R² is 0; no `InsufficientDataError` is raised and no warning
is shown. -/
theorem C9_degenerate_fit_succeeds (c : ℚ) (ys : List ℚ) (hc : c ≠ 0)
    (hsst : (ys.map fun v => (v - listMean ys) ^ 2).sum ≠ 0) :
    (xCol (ys.map fun y => (c, y))).dedup.length < 2 ∧
    olsDisplay (ys.map fun y => (c, y)) = (listMean ys / c, 0) := by
  have hxs : xCol (ys.map fun y => (c, y)) = List.replicate ys.length c := by
    simp [xCol, List.map_map, Function.comp]
  have hys : yCol (ys.map fun y => (c, y)) = ys := by
    simp [yCol, List.map_map, Function.comp]
  have hne : ys ≠ [] := by
    intro h
    subst h
    simp at hsst
  have hn : ((ys.length : ℚ)) ≠ 0 := by
    simpa using fun h => hne (List.length_eq_zero.mp h)
  constructor
  · rw [hxs]
    exact lt_of_le_of_lt (dedup_replicate_le_one ys.length c) (by norm_num)
  · have hconst : isConstCol (List.replicate ys.length c) = true := by
      rcases ys with _ | ⟨y0, t⟩
      · exact absurd rfl hne
      · simp [isConstCol, List.replicate_succ, List.all_eq_true]
    rw [olsDisplay]
    simp only [hxs, hys, hconst, if_true]
    have hxy : ((ys.map fun y => (c, y)).map fun p => p.1 * p.2) = ys.map fun y => c * y := by
      simp [List.map_map, Function.comp]
    have hxx : ((List.replicate ys.length c).map fun v => v * v).sum = (ys.length : ℚ) * (c * c) := by
      rw [List.map_replicate, List.sum_replicate, nsmul_eq_mul]
    have hb : (((ys.map fun y => (c, y)).map fun p => p.1 * p.2).sum) /
        (((List.replicate ys.length c).map fun v => v * v).sum) = listMean ys / c := by
      rw [hxy, hxx]
      have hsum : (ys.map fun y => c * y).sum = c * ys.sum := by
        simpa using List.sum_map_mul_left ys id c
      rw [hsum, listMean]
      field_simp
      ring
    rw [hb]
    have hbc : listMean ys / c * c = listMean ys := by
      field_simp
    have hssr : ((ys.map fun y => (c, y)).map fun p => (p.2 - listMean ys / c * p.1) ^ 2).sum =
        (ys.map fun v => (v - listMean ys) ^ 2).sum := by
      rw [List.map_map]
      apply congrArg
      apply List.map_congr_left
      intro y hy
      simp only [Function.comp_apply]
      rw [hbc]
    rw [hssr, div_self hsst]
    norm_num

/-- Witness for C9's amended theorem at c = 2, y = [1, 3]: the
degenerate regression still yields coefficient 1 and R² = 0. -/
theorem C9_degenerate_fit_succeeds_witness :
    (xCol (([1, 3] : List ℚ).map fun y => ((2 : ℚ), y))).dedup.length < 2 ∧
    olsDisplay (([1, 3] : List ℚ).map fun y => ((2 : ℚ), y)) = (listMean [1, 3] / 2, 0) :=
  C9_degenerate_fit_succeeds 2 [1, 3] (by norm_num) (by norm_num [listMean])

/-- Overwriting the column named `cname` leaves lookups of any other
name unchanged (replace branch). -/
theorem find?_overwrite (g : Frame) (cname c' : String) (v : List (Option ℚ)) (h : c' ≠ cname) :
    (g.map fun p => if p.1 == cname then (cname, v) else p).find? (fun p => p.1 == c') =
      g.find? (fun p => p.1 == c') := by
  induction g with
  | nil => rfl
  | cons q t ih =>
    rw [List.map_cons]
    by_cases hq : q.1 = cname
    · have hq' : (q.1 == cname) = true := beq_iff_eq.mpr hq
      have hnc : (cname == c') = false := beq_eq_false_iff_ne.mpr fun e => h e.symm
      have hqc : (q.1 == c') = false := beq_eq_false_iff_ne.mpr fun e => h (hq ▸ e).symm
      simp only [hq', if_true]
      rw [List.find?_cons_of_neg _ (by simp [hnc]), List.find?_cons_of_neg _ (by simp [hqc]), ih]
    · have hq' : (q.1 == cname) = false := beq_eq_false_iff_ne.mpr hq
      simp only [hq', if_false]
      by_cases hqc : q.1 = c'
      · rw [List.find?_cons_of_pos _ (by simp [hqc]), List.find?_cons_of_pos _ (by simp [hqc])]
        simp [hq']
      · rw [List.find?_cons_of_neg _ (by simp [hqc]), List.find?_cons_of_neg _ (by simp [hqc]), ih]

/-- Reading any column other than the one just assigned is unaffected
by the assignment. -/
theorem getCol_setCol_ne (f : Frame) (cname c' : String) (v : List (Option ℚ)) (h : c' ≠ cname) :
    getCol (setCol f cname v) c' = getCol f c' := by
  rw [setCol]
  split_ifs with hany
  · rw [getCol, getCol, find?_overwrite f cname c' v h]
  · rw [getCol, getCol, List.find?_append]
    have : ([(cname, v)].find? fun p => p.1 == c') = none := by
      simp [beq_eq_false_iff_ne.mpr fun e : cname = c' => h e.symm]
    rw [this, Option.or_none]

/-- Claim C10: for any two runs over the same dataset and the same
filter selection, every displayed numeric summary (the four overview
averages, the correlation matrix, the correlation coefficient and the
regression output) is identical whatever jitter noise is drawn: the
randomly generated `Happiness Jitter` column never enters any
aggregation. -/
theorem C10_summaries_deterministic (df : List LoadedRecord) (sel : Selection)
    (n1 n2 : List ℚ) (xv yv : String)
    (hx : xv ∈ numericCols) (hy : yv ∈ numericCols) :
    runSummaries df sel n1 xv yv = runSummaries df sel n2 xv yv := by
  have hjit : ∀ c ∈ numericCols, c ≠ "Happiness Jitter" := by decide
  have hget : ∀ (noise : List ℚ) (c : String), c ∈ numericCols →
      getCol (setCol (frameOf (filtered_df df sel)) "Happiness Jitter"
        (((filtered_df df sel).zip noise).map fun p => some (p.1.raw.happinessScore + p.2))) c =
      getCol (frameOf (filtered_df df sel)) c := by
    intro noise c hc
    exact getCol_setCol_ne _ _ _ _ (hjit c hc)
  have hcm : ∀ noise : List ℚ, corrMatrix (setCol (frameOf (filtered_df df sel)) "Happiness Jitter"
      (((filtered_df df sel).zip noise).map fun p => some (p.1.raw.happinessScore + p.2))) numericCols =
      corrMatrix (frameOf (filtered_df df sel)) numericCols := by
    intro noise
    rw [corrMatrix, corrMatrix]
    apply List.map_congr_left
    intro ci hci
    apply List.map_congr_left
    intro cj hcj
    rw [hget noise ci hci, hget noise cj hcj]
  simp only [runSummaries]
  rw [hcm n1, hcm n2, hget n1 xv hx, hget n2 xv hx, hget n1 yv hy, hget n2 yv hy]

/-- Witness for C10 at a concrete dataset, selection, variable choices
and two different noise draws. -/
theorem C10_summaries_deterministic_witness :
    runSummaries [sampleRow] sampleSel [0] "Sleep Hours" "Happiness Score" =
    runSummaries [sampleRow] sampleSel [1 / 2] "Sleep Hours" "Happiness Score" :=
  C10_summaries_deterministic [sampleRow] sampleSel [0] [1 / 2] "Sleep Hours" "Happiness Score"
    (by decide) (by decide)
